import Mathlib

/-
Verification of the covidcast CSV importer core (delphi-epidata).

The importer itself (`delphi/epidata/acquisition/covidcast/csv_importer.py`
and the helper `delphi/utils/epiweek.py`) is not part of the source tree
here; only its unit tests are
(`src/tests/acquisition/covidcast/test_csv_importer.py`).  The definitions
below are therefore modelled from the specification, with the repository's
unit tests taken as the deciding authority wherever they pin down concrete
behavior.  Each definition's doc comment records where it comes from.
-/

/-- Modelled from the spec: the closed `MissingCode` enumeration of §3
("NOT_MISSING, NOT_APPLICABLE, REGION_EXCEPTION, OTHER, DELETED, plus any
private/reserved sentinel"), transmitted on the wire as small integers
0..5 as in the `delphi_utils.Nans` enumeration the tests import. -/
inductive Nans where
  | NOT_MISSING
  | NOT_APPLICABLE
  | REGION_EXCEPTION
  | CENSORED
  | DELETED
  | OTHER
deriving DecidableEq, Inhabited

/-- Modelled from the spec: the wire decoding of a small-integer missing
code into an enumeration member; integers outside the closed enumeration
are not members (and hence count as unparseable). -/
def intToNans (n : Int) : Option Nans :=
  if n = 0 then some Nans.NOT_MISSING
  else if n = 1 then some Nans.NOT_APPLICABLE
  else if n = 2 then some Nans.REGION_EXCEPTION
  else if n = 3 then some Nans.CENSORED
  else if n = 4 then some Nans.DELETED
  else if n = 5 then some Nans.OTHER
  else none

/-- Modelled from the spec: one raw CSV data row as handed to
`extract_and_check_row` (§4.4); every cell is an optional raw text token
(a `null` cell is `none`). -/
structure CsvRow where
  geo_id : Option String
  value : Option String
  stderr : Option String
  sample_size : Option String
  missing_value : Option String
  missing_stderr : Option String
  missing_sample_size : Option String
deriving DecidableEq, Inhabited

/-- Modelled from the spec: the `RowValues` record of §3 (immutable,
produced per accepted data row).  Numeric fields are rationals in place of
Python floats. -/
structure RowValues where
  geo_value : String
  value : Option ℚ
  stderr : Option ℚ
  sample_size : Option ℚ
  missing_value : Nans
  missing_stderr : Nans
  missing_sample_size : Nans
deriving DecidableEq, Inhabited

/-- Lower-case a string character by character. -/
def lowerStr (s : String) : String := String.mk (s.data.map Char.toLower)

/-- Numeric value of a list of decimal digit characters. -/
def natOfDigits (cs : List Char) : Nat :=
  cs.foldl (fun a c => a * 10 + (c.toNat - 48)) 0

/-- Modelled from the spec: a plain decimal numeral parser (optional sign,
integer digits, optional fractional digits) standing in for Python's
`float(...)` on ordinary numeric tokens; tokens that are not plain
decimals (e.g. `hrr001`, `value`, `1.2.3`) fail. -/
def parseDec (cs : List Char) : Option ℚ :=
  let signSplit : Int × List Char :=
    match cs with
    | '-' :: r => (-1, r)
    | '+' :: r => (1, r)
    | r => (1, r)
  let sign := signSplit.1
  let body := signSplit.2
  let ip := body.takeWhile Char.isDigit
  let rest := body.drop ip.length
  match rest with
  | [] => if ip.isEmpty then none else some (mkRat (sign * natOfDigits ip) 1)
  | '.' :: frac =>
    if frac.all Char.isDigit && !(ip.isEmpty && frac.isEmpty) then
      some (mkRat (sign * (natOfDigits ip * 10 ^ frac.length + natOfDigits frac))
        (10 ^ frac.length))
    else none
  | _ => none

/-- Modelled from the spec: `CsvImporter.floaty_int` — "cast a string to
an int, even if it looks like a float"; a decimal with a nonzero
fractional part, or a non-numeric token, fails (tests: `-1` ↦ -1,
`-1.0` ↦ -1, `-1.1` raises). -/
def floaty_int (s : String) : Option Int :=
  match parseDec s.data with
  | some q => if q.den = 1 then some q.num else none
  | none => none

/-- Modelled from the spec: the null-like raw tokens of
`CsvImporter.maybe_apply` — an absent cell, the empty string, `NA`,
`NaN` and `None` (case-insensitive) all denote an absent quantity. -/
def isNullish (raw : Option String) : Bool :=
  match raw with
  | none => true
  | some s =>
    let l := lowerStr s
    l == "" || l == "na" || l == "nan" || l == "none"

/-- Modelled from the spec (§9 design notes): the three-way result of
tolerant numeric parsing — `absent`, `malformed`, an infinite float, or a
present finite value. -/
inductive Quantity where
  | absent
  | malformed
  | infinite
  | finite (q : ℚ)
deriving DecidableEq

/-- Modelled from the spec: tolerant parsing of a numeric cell (§4.4 step
2): null-like tokens are absent; `inf`-like tokens parse to an infinite
float; plain decimals are finite; anything else is malformed. -/
def parseQuantity (raw : Option String) : Quantity :=
  if isNullish raw then Quantity.absent
  else
    match raw with
    | none => Quantity.absent
    | some s =>
      let l := lowerStr s
      if l == "inf" || l == "+inf" || l == "-inf" ||
         l == "infinity" || l == "+infinity" || l == "-infinity" then
        Quantity.infinite
      else
        match parseDec l.data with
        | some q => Quantity.finite q
        | none => Quantity.malformed

/-- Modelled from the spec: the acceptance rule for the `value` field —
absent is fine, a finite value (negative allowed) is fine, malformed or
infinite is a hard failure. -/
def checkValueField (q : Quantity) : Option (Option ℚ) :=
  match q with
  | Quantity.absent => some none
  | Quantity.finite v => some (some v)
  | Quantity.malformed => none
  | Quantity.infinite => none

/-- Modelled from the spec: the acceptance rule for `stderr` and
`sample_size` — as for `value`, but a finite negative value is also a
hard failure. -/
def checkStatField (q : Quantity) : Option (Option ℚ) :=
  match q with
  | Quantity.absent => some none
  | Quantity.finite v => if v < 0 then none else some (some v)
  | Quantity.malformed => none
  | Quantity.infinite => none

/-- Modelled from the spec: parsing of a raw missing-code cell into an
enumeration member (§4.4 step 3): null-like raw text and unparseable raw
text both yield no member. -/
def parseMissingNans (raw : Option String) : Option Nans :=
  match raw with
  | none => none
  | some s => if isNullish (some s) then none else (floaty_int s).bind intToNans

/-- Modelled from the spec: missing-code reconciliation (§4.4 step 3
together with the RowValues invariant of §3, "a field is null if and only
if its paired MissingCode is not NOT_MISSING"): a present numeric field
always materializes with NOT_MISSING; an absent field keeps a supplied
non-trivial code, and collapses any unparseable, absent or NOT_MISSING
code to OTHER.  This matches the expected records written in the
repository's `test_extract_and_check_row` and the asserted codes of
`test_load_csv_with_valid_header`. -/
def resolveMissingCode (raw : Option String) (present : Bool) : Nans :=
  if present then Nans.NOT_MISSING
  else
    match parseMissingNans raw with
    | some c => if c = Nans.NOT_MISSING then Nans.OTHER else c
    | none => Nans.OTHER

/-- Modelled from the spec: the recognized geography kinds of §4.2. -/
def GEOGRAPHIC_RESOLUTIONS : List String :=
  ["county", "hrr", "msa", "dma", "state", "hhs", "nation"]

/-- Modelled from the spec: per-geo-type validation and normalization of
a `geo_id` (§4.4 step 1), returning the normalized geo value on success.
The numeric kinds (`hrr`, `msa`, `dma`, `hhs`) are first normalized
through `floaty_int`.  Where the spec and the repository's tests
disagree, the tests decide: `test_extract_and_check_row` rejects hrr
`600` and dma `400`, so the accepted ranges are hrr [1, 500] and dma
[450, 950] (the upstream covidcast ranges), not the spec's [1, 999];
likewise msa `01234` is rejected, so msa ids are 5-digit numbers in
[10000, 99999] after normalization. -/
def checkGeoId (geo_type geo_id : String) : Option String :=
  let g := lowerStr geo_id
  if geo_type == "county" then
    if g.length == 5 && g.data.all Char.isDigit && g != "00000" then some g else none
  else if geo_type == "state" then
    if g.length == 2 && g.data.all Char.isAlpha then some g else none
  else if geo_type == "nation" then
    if g.length == 2 && g.data.all Char.isAlpha then some g else none
  else if geo_type == "hrr" then
    match floaty_int g with
    | some n => if 1 ≤ n ∧ n ≤ 500 then some (toString n) else none
    | none => none
  else if geo_type == "msa" then
    match floaty_int g with
    | some n => if 10000 ≤ n ∧ n ≤ 99999 then some (toString n) else none
    | none => none
  else if geo_type == "dma" then
    match floaty_int g with
    | some n => if 450 ≤ n ∧ n ≤ 950 then some (toString n) else none
    | none => none
  else if geo_type == "hhs" then
    match floaty_int g with
    | some n => if 1 ≤ n ∧ n ≤ 10 then some (toString n) else none
    | none => none
  else none

/-- Modelled from the spec: steps 2–5 of `extract_and_check_row` (§4.4)
once the geography has been validated to `g`: parse `value`, `stderr`
and `sample_size` in that fixed order, fail fast on the first bad field,
and on success build the `RowValues` record with reconciled missing
codes. -/
def checkNumerics (row : CsvRow) (g : String) : Option RowValues × Option String :=
  match checkValueField (parseQuantity row.value) with
  | none => (none, some "value")
  | some v =>
    match checkStatField (parseQuantity row.stderr) with
    | none => (none, some "stderr")
    | some se =>
      match checkStatField (parseQuantity row.sample_size) with
      | none => (none, some "sample_size")
      | some n =>
        (some { geo_value := g
                value := v
                stderr := se
                sample_size := n
                missing_value := resolveMissingCode row.missing_value v.isSome
                missing_stderr := resolveMissingCode row.missing_stderr se.isSome
                missing_sample_size := resolveMissingCode row.missing_sample_size n.isSome },
         none)

/-- Modelled from the spec: `CsvImporter.extract_and_check_row` (§4.4) —
validate the row's geography and numeric fields in the fixed order
geo_type → geo_id → value → stderr → sample_size, returning either a
`RowValues` or the name of the first failing field. -/
def extract_and_check_row (row : CsvRow) (geo_type : Option String) :
    Option RowValues × Option String :=
  match geo_type with
  | none => (none, some "geo_type")
  | some t =>
    if GEOGRAPHIC_RESOLUTIONS.contains t then
      match row.geo_id with
      | none => (none, some "geo_id")
      | some gid =>
        match checkGeoId t gid with
        | none => (none, some "geo_id")
        | some g => checkNumerics row g
    else (none, some "geo_type")

/-- Modelled from the spec: the fixed required-column schema of §4.3.
The spec's illustrative list also names the three missing-code columns,
but the repository's `test_load_csv_with_valid_header` accepts a header
with only these four columns, so the tests decide. -/
def REQUIRED_COLUMNS : List String := ["geo_id", "val", "se", "sample_size"]

/-- Modelled from the spec: `CsvImporter.is_header_valid` (§4.3) — the
column names, viewed as a set, must be a superset of
`REQUIRED_COLUMNS`; order and extra columns are irrelevant. -/
def is_header_valid (columns : List String) : Bool :=
  REQUIRED_COLUMNS.all (fun c => columns.contains c)

/-- Modelled from the spec: an in-memory CSV file as seen by `load_csv`
— the header row and the data rows. -/
structure CsvFile where
  header : List String
  rows : List CsvRow
deriving Inhabited

/-- Modelled from the spec: `CsvImporter.load_csv` (§4.4) — validate the
header once; if invalid the whole output is the single element `none`
and no data row is read; otherwise each data row is passed through
`extract_and_check_row` (a failing row contributes `none`). -/
def load_csv (file : CsvFile) (geo_type : String) : List (Option RowValues) :=
  if is_header_valid file.header then
    file.rows.map (fun r => (extract_and_check_row r (some geo_type)).1)
  else [none]

/-- Whether a (proleptic Gregorian) year is a leap year. -/
def isLeapYear (y : Int) : Bool :=
  (y % 4 == 0 && y % 100 != 0) || y % 400 == 0

/-- Number of days in a month of a given year. -/
def daysInMonth (y m : Int) : Int :=
  if m = 2 then (if isLeapYear y then 29 else 28)
  else if m = 4 ∨ m = 6 ∨ m = 9 ∨ m = 11 then 30
  else 31

/-- Modelled from the spec: `CsvImporter.is_sane_day` (§4.1 and §8) —
true iff the integer has exactly 8 digits and decomposes as YYYYMMDD
into a real calendar date with 1900 ≤ year, 1 ≤ month ≤ 12, and a day
valid for that month and year.  Total; any non-8-digit input (including
negative input) is false.  The §8 property states no upper year bound
for days, and none of the repository's tests forces one, so none is
modelled. -/
def is_sane_day (value : Int) : Bool :=
  let year := value / 10000
  let month := (value % 10000) / 100
  let day := value % 100
  decide (10000000 ≤ value ∧ value ≤ 99999999) &&
    decide (1900 ≤ year) &&
    decide (1 ≤ month ∧ month ≤ 12) &&
    decide (1 ≤ day ∧ day ≤ daysInMonth year month)

/-- Modelled from the spec: the "plausible year" test of §4.1 for
epiweeks: at least 1900 and at most one year past the injected current
year (`test_is_sane_week` rejects 222222, so an upper bound tied to
"today" is required; the spec's §9 design note injects the current date
as an explicit parameter). -/
def plausible_year (nearby_year y : Int) : Bool :=
  decide (1900 ≤ y ∧ y ≤ nearby_year + 1)

/-- Modelled from the spec: `CsvImporter.is_sane_week` (§4.1 and §8) —
true iff the integer has exactly 6 digits, the first four form a
plausible year relative to the injected current year, and the last two
form a week number in [1, 53].  Total; any non-6-digit input (including
an 8-digit date) is false. -/
def is_sane_week (nearby_year value : Int) : Bool :=
  let year := value / 100
  let week := value % 100
  decide (100000 ≤ value ∧ value ≤ 999999) &&
    plausible_year nearby_year year &&
    decide (1 ≤ week ∧ week ≤ 53)

/-- Days since 1970-01-01 of a proleptic Gregorian date (the standard
days-from-civil algorithm). -/
def daysFromCivil (y m d : Int) : Int :=
  let y2 := if m ≤ 2 then y - 1 else y
  let era := (if 0 ≤ y2 then y2 else y2 - 399) / 400
  let yoe := y2 - era * 400
  let mp := Int.emod (m + 9) 12
  let doy := (153 * mp + 2) / 5 + d - 1
  let doe := yoe * 365 + yoe / 4 - yoe / 100 + doy
  era * 146097 + doe - 719468

/-- Day of week of a date, 0 = Sunday. -/
def weekdayOf (y m d : Int) : Int :=
  Int.emod (daysFromCivil y m d + 4) 7

/-- Modelled from the spec: number of weeks in a year's epiweek (MMWR)
calendar — 53 when January 1 falls on a Wednesday, or on a Tuesday of a
leap year; otherwise 52 (`delphi.utils.epiweek` is not in the source
tree). -/
def weeksInEpiYear (y : Int) : Int :=
  let w := weekdayOf y 1 1
  if w = 3 ∨ (isLeapYear y ∧ w = 2) then 53 else 52

/-- Total number of epiweeks in the years before year `y`. -/
def weeksBeforeYear (y : Nat) : Int :=
  (List.range y).foldl (fun acc i => acc + weeksInEpiYear (i : Int)) 0

/-- Absolute index of a YYYYWW epiweek on the epiweek time line. -/
def epiweekIndex (ew : Int) : Int :=
  weeksBeforeYear (ew / 100).toNat + ew % 100

/-- Modelled from the spec: `delphi.utils.epiweek.delta_epiweeks` — the
number of epiweeks between two YYYYWW epiweeks. -/
def delta_epiweeks (ew1 ew2 : Int) : Int :=
  epiweekIndex ew2 - epiweekIndex ew1

/-- Modelled from the spec (§9 design note): the injected current date —
calendar components plus the current YYYYWW epiweek — standing in for
the global "today" the importer reads at discovery time. -/
structure Today where
  year : Int
  month : Int
  day : Int
  epiweek : Int
deriving DecidableEq

/-- The YYYYMMDD integer of the injected current date. -/
def todayDayValue (t : Today) : Int :=
  t.year * 10000 + t.month * 100 + t.day

/-- Whether a character counts as a word character (regex `\w`). -/
def isWordChar (c : Char) : Bool := c.isAlphanum || c == '_'

/-- Split a character list on a separator character. -/
def splitChar (sep : Char) : List Char → List (List Char)
  | [] => [[]]
  | c :: rest =>
    let r := splitChar sep rest
    if c == sep then [] :: r
    else
      match r with
      | [] => [[c]]
      | h :: t => (c :: h) :: t

/-- Break a character list at its first underscore, returning the parts
before and after it. -/
def breakUnderscore : List Char → Option (List Char × List Char)
  | [] => none
  | c :: rest =>
    if c == '_' then some ([], rest)
    else
      match breakUnderscore rest with
      | some p => some (c :: p.1, p.2)
      | none => none

/-- Whether a lower-cased path ends in `.csv`. -/
def endsWithCsv (cs : List Char) : Bool :=
  cs.reverse.take 4 == ['v', 's', 'c', '.']

/-- Modelled from the spec: the fields a standard file name carries —
whether the `weekly_` marker was present, the embedded time value, and
the geo-type and signal segments. -/
structure ParsedName where
  source : String
  weekly : Bool
  time_value : Int
  geo_type : String
  signal : String
deriving DecidableEq

/-- Modelled from the spec: the `<time_value>_<geo_type>_<signal>` core
of a standard file name (§4.2): exactly `n` leading digits, an
underscore, then a geo-type segment up to the next underscore and a
non-empty signal, all word characters (the regex geo-type group is
non-greedy, so the geo-type ends at the first underscore). -/
def parseFilenameCore (n : Nat) (cs : List Char) : Option (Int × List Char × List Char) :=
  let ds := cs.take n
  if ds.length == n && ds.all Char.isDigit then
    match cs.drop n with
    | '_' :: rest =>
      match breakUnderscore rest with
      | some p =>
        if !p.1.isEmpty && p.1.all isWordChar && !p.2.isEmpty && p.2.all isWordChar then
          some ((natOfDigits ds : Int), p.1, p.2)
        else none
      | none => none
    | _ => none
  else none

/-- Modelled from the spec: matching a (lower-cased) file name against
the standard shape `[weekly_]<time_value>_<geo_type>_<signal>.csv`
(§4.2); the `weekly_` marker selects a 6-digit week, its absence an
8-digit day. -/
def parseFilename (cs : List Char) : Option (Bool × Int × List Char × List Char) :=
  if endsWithCsv cs then
    let base := cs.take (cs.length - 4)
    if base.take 7 == ['w', 'e', 'e', 'k', 'l', 'y', '_'] then
      match parseFilenameCore 6 (base.drop 7) with
      | some r => some (true, r.1, r.2.1, r.2.2)
      | none => none
    else
      match parseFilenameCore 8 base with
      | some r => some (false, r.1, r.2.1, r.2.2)
      | none => none
  else none

/-- Modelled from the spec: matching a full (lower-cased) path against
the standard file shape `<prefix>/<source>/<file>` (§4.2): the path must
have at least two separators; the source is the second-to-last segment
and the file name the last. -/
def parsePath (cs : List Char) : Option ParsedName :=
  let segs := splitChar '/' cs
  if 3 ≤ segs.length then
    match segs.reverse with
    | fname :: src :: _ =>
      match parseFilename fname with
      | some r => some ⟨String.mk src, r.1, r.2.1, String.mk r.2.2.1, String.mk r.2.2.2⟩
      | none => none
    | _ => none
  else none

/-- Modelled from the spec: the 7-tuple parsed-metadata output of §6 —
`(source, signal, time_type, geo_type, time_value, issue, lag)`. -/
abbrev PathMeta := String × String × String × String × Int × Int × Int

/-- Modelled from the spec: the sanity and geography checks applied to a
recognized standard file name (§4.2): the embedded time value must pass
the sanity predicate for its granularity and the geo-type must be
recognized; the issue defaults to the injected current day or epiweek
and the lag is the difference in the matching unit. -/
def metaOf (t : Today) (pn : ParsedName) : Option PathMeta :=
  if pn.weekly then
    if is_sane_week t.year pn.time_value then
      if GEOGRAPHIC_RESOLUTIONS.contains pn.geo_type then
        some (pn.source, pn.signal, "week", pn.geo_type, pn.time_value, t.epiweek,
              delta_epiweeks pn.time_value t.epiweek)
      else none
    else none
  else
    if is_sane_day pn.time_value then
      if GEOGRAPHIC_RESOLUTIONS.contains pn.geo_type then
        some (pn.source, pn.signal, "day", pn.geo_type, pn.time_value, todayDayValue t,
              daysFromCivil t.year t.month t.day -
                daysFromCivil (pn.time_value / 10000) ((pn.time_value % 10000) / 100)
                  (pn.time_value % 100))
      else none
    else none

/-- Modelled from the spec: classification of one discovered path by
`CsvImporter.find_csv_files`.  A path whose lower-cased name does not
end in `.csv` is skipped outright (the repository's
`test_find_csv_files` expects no output pair at all for `README.md`);
a `.csv` path is always emitted, paired with its parsed metadata or with
`none` when the shape, sanity or geography check fails. -/
def classifyPath (t : Today) (path : String) : Option (String × Option PathMeta) :=
  let lc := path.data.map Char.toLower
  if endsWithCsv lc then
    match parsePath lc with
    | some pn => some (path, metaOf t pn)
    | none => some (path, none)
  else none

/-- Modelled from the spec: `CsvImporter.find_csv_files` over an already
globbed list of paths, with the current date injected (§9 design
note). -/
def find_csv_files (t : Today) (paths : List String) : List (String × Option PathMeta) :=
  paths.filterMap (classifyPath t)

/-! Helper rows and dates shared by several witnesses below. -/

/-- The default row of the tests' `make_row`: geo `vi`, value `1.23`,
stderr `4.56`, sample size `100.5`, all missing codes `0.0`
(NOT_MISSING), with one field substituted per scenario. -/
def rowWithGeo (gid : String) : CsvRow :=
  ⟨some gid, some "1.23", some "4.56", some "100.5",
   some "0.0", some "0.0", some "0.0"⟩

/-- A concrete injected current date: 2026-10-12, epiweek 202642. -/
def T0 : Today := ⟨2026, 10, 12, 202642⟩

/-- Every month has at most 31 days. -/
theorem daysInMonth_le (y m : Int) : daysInMonth y m ≤ 31 := by
  unfold daysInMonth
  split
  · split <;> norm_num
  · split <;> norm_num

/-- C3: for every 8-digit integer, `is_sane_day` holds iff the integer
decomposes as YYYYMMDD into a real calendar date with year at least
1900, month in 1..12 and a day valid for that month and year; every
integer without exactly 8 digits (such as 202015) yields `false`.  The
function is total by construction. -/
theorem C3_is_sane_day_correct :
    (∀ v : Int, is_sane_day v = true ↔
      ∃ y m d : Int, v = y * 10000 + m * 100 + d ∧
        1900 ≤ y ∧ y ≤ 9999 ∧ 1 ≤ m ∧ m ≤ 12 ∧ 1 ≤ d ∧ d ≤ daysInMonth y m) ∧
    (∀ v : Int, v < 10000000 ∨ 99999999 < v → is_sane_day v = false) := by
  constructor
  · intro v
    constructor
    · intro h
      simp only [is_sane_day, Bool.and_eq_true, decide_eq_true_eq] at h
      obtain ⟨⟨⟨h1, h2⟩, h3⟩, h4⟩ := h
      exact ⟨v / 10000, v % 10000 / 100, v % 100, by omega, by omega, by omega,
        h3.1, h3.2, h4.1, h4.2⟩
    · rintro ⟨y, m, d, hv, hy, hy2, hm1, hm2, hd1, hd2⟩
      have h31 : d ≤ 31 := le_trans hd2 (daysInMonth_le y m)
      have e1 : v / 10000 = y := by omega
      have e2 : v % 10000 / 100 = m := by omega
      have e3 : v % 100 = d := by omega
      simp only [is_sane_day, Bool.and_eq_true, decide_eq_true_eq]
      rw [e1, e2, e3]
      exact ⟨⟨⟨by omega, hy⟩, hm1, hm2⟩, hd1, hd2⟩
  · intro v hv
    have h : decide (10000000 ≤ v ∧ v ≤ 99999999) = false := by
      simp only [decide_eq_false_iff_not]
      omega
    simp [is_sane_day, h]

/-- Witness for C3 at the tests' concrete inputs: 20200418 is a sane
day and the 6-digit 202015 is not. -/
theorem C3_is_sane_day_correct_witness :
    is_sane_day 20200418 = true ∧ is_sane_day 202015 = false :=
  ⟨(C3_is_sane_day_correct.1 20200418).mpr
      ⟨2020, 4, 18, by norm_num, by norm_num, by norm_num, by norm_num,
        by norm_num, by norm_num, by decide⟩,
   C3_is_sane_day_correct.2 202015 (by norm_num)⟩

/-- C4: for every 6-digit integer, `is_sane_week` holds iff the integer
decomposes as YYYYWW with a plausible year (at least 1900, at most one
past the injected current year) and a week number in [1, 53]; every
8-digit integer (such as 20200418) yields `false`. -/
theorem C4_is_sane_week_correct :
    (∀ nearby_year v : Int, is_sane_week nearby_year v = true ↔
      ∃ y w : Int, v = y * 100 + w ∧ plausible_year nearby_year y = true ∧
        y ≤ 9999 ∧ 1 ≤ w ∧ w ≤ 53) ∧
    (∀ nearby_year v : Int, 10000000 ≤ v → v ≤ 99999999 →
      is_sane_week nearby_year v = false) := by
  constructor
  · intro ny v
    simp only [is_sane_week, plausible_year, Bool.and_eq_true, decide_eq_true_eq]
    constructor
    · rintro ⟨⟨⟨h1, h2⟩, h3, h4⟩, h5⟩
      exact ⟨v / 100, v % 100, by omega, by omega, by omega, h5.1, h5.2⟩
    · rintro ⟨y, w, hv, hy, hy2, hw1, hw2⟩
      have e1 : v / 100 = y := by omega
      have e2 : v % 100 = w := by omega
      rw [e1, e2]
      exact ⟨⟨⟨by omega, by omega⟩, hy.1, hy.2⟩, hw1, hw2⟩
  · intro ny v h1 h2
    have h : decide (100000 ≤ v ∧ v ≤ 999999) = false := by
      simp only [decide_eq_false_iff_not]
      omega
    simp [is_sane_week, h]

/-- Witness for C4 at the tests' concrete inputs with current year
2026: 202015 is a sane week and the 8-digit 20200418 is not. -/
theorem C4_is_sane_week_correct_witness :
    is_sane_week 2026 202015 = true ∧ is_sane_week 2026 20200418 = false :=
  ⟨(C4_is_sane_week_correct.1 2026 202015).mpr
      ⟨2020, 15, by norm_num, by decide, by norm_num, by norm_num, by norm_num⟩,
   C4_is_sane_week_correct.2 2026 20200418 (by norm_num) (by norm_num)⟩

/-- C5: `is_header_valid` is exactly the superset test against
`REQUIRED_COLUMNS`: it holds iff every required column is among the
given columns; it accepts the required columns themselves, is preserved
by adding extra columns and by permuting the column order, and removing
any single required column falsifies it. -/
theorem C5_is_header_valid_superset :
    (∀ columns : List String,
      is_header_valid columns = true ↔ ∀ c ∈ REQUIRED_COLUMNS, c ∈ columns) ∧
    is_header_valid REQUIRED_COLUMNS = true ∧
    (∀ columns extra : List String, is_header_valid columns = true →
      is_header_valid (columns ++ extra) = true) ∧
    (∀ columns columns' : List String, columns.Perm columns' →
      is_header_valid columns = is_header_valid columns') ∧
    (∀ c ∈ REQUIRED_COLUMNS, is_header_valid (REQUIRED_COLUMNS.erase c) = false) := by
  have hmem : ∀ columns : List String,
      is_header_valid columns = true ↔ ∀ c ∈ REQUIRED_COLUMNS, c ∈ columns := by
    intro columns
    simp [is_header_valid, List.all_eq_true, List.contains, List.elem_iff]
  refine ⟨hmem, by decide, ?_, ?_, by decide⟩
  · intro columns extra h
    rw [hmem] at h ⊢
    intro c hc
    exact List.mem_append_left extra (h c hc)
  · intro columns columns' hperm
    rcases h : is_header_valid columns' with _ | _
    · rw [Bool.eq_false_iff]
      intro hcontra
      rw [hmem] at hcontra
      rw [Bool.eq_false_iff] at h
      exact h (by rw [hmem]; intro c hc; exact hperm.mem_iff.mp (hcontra c hc))
    · rw [hmem] at h ⊢
      intro c hc
      exact hperm.mem_iff.mpr (h c hc)

/-- Witness for C5: the required columns plus two extra columns form a
valid header. -/
theorem C5_is_header_valid_superset_witness :
    is_header_valid (REQUIRED_COLUMNS ++ ["foo", "bar"]) = true :=
  C5_is_header_valid_superset.2.2.1 REQUIRED_COLUMNS ["foo", "bar"]
    C5_is_header_valid_superset.2.1

/-- C2: when the column header fails `is_header_valid`, `load_csv`
produces exactly the one-element sequence `[none]`, whatever the data
rows are — the whole file is rejected and no data row is emitted. -/
theorem C2_load_csv_invalid_header (header : List String) (rows : List CsvRow)
    (geo_type : String) (h : is_header_valid header = false) :
    load_csv ⟨header, rows⟩ geo_type = [none] := by
  simp [load_csv, h]

/-- Witness for C2 at the tests' concrete file: a header with only a
`foo` column is rejected as the single element `none`. -/
theorem C2_load_csv_invalid_header_witness :
    load_csv ⟨["foo"], [rowWithGeo "vi"]⟩ "state" = [none] :=
  C2_load_csv_invalid_header ["foo"] [rowWithGeo "vi"] "state" (by decide)

/-- A present numeric field always materializes with `NOT_MISSING`. -/
theorem resolveMissingCode_present (raw : Option String) :
    resolveMissingCode raw true = Nans.NOT_MISSING := rfl

/-- An absent numeric field never materializes with `NOT_MISSING`. -/
theorem resolveMissingCode_absent_ne (raw : Option String) :
    resolveMissingCode raw false ≠ Nans.NOT_MISSING := by
  unfold resolveMissingCode
  rw [if_neg (by simp)]
  rcases h : parseMissingNans raw with _ | c
  · simp
  · by_cases hc : c = Nans.NOT_MISSING
    · simp [hc]
    · simp [hc]

/-- An absent numeric field whose supplied code is absent, unparseable
or `NOT_MISSING` materializes with `OTHER`. -/
theorem resolveMissingCode_absent_other (raw : Option String)
    (h : parseMissingNans raw = some Nans.NOT_MISSING ∨ parseMissingNans raw = none) :
    resolveMissingCode raw false = Nans.OTHER := by
  unfold resolveMissingCode
  rw [if_neg (by simp)]
  rcases h with h | h <;> simp [h]

/-- Inversion of a successful extraction: the returned record's numeric
fields are the parsed quantities and its missing codes are the
reconciled codes for the respective field's presence. -/
theorem extract_success (row : CsvRow) (gt : Option String) (rv : RowValues)
    (h : extract_and_check_row row gt = (some rv, none)) :
    checkValueField (parseQuantity row.value) = some rv.value ∧
    checkStatField (parseQuantity row.stderr) = some rv.stderr ∧
    checkStatField (parseQuantity row.sample_size) = some rv.sample_size ∧
    rv.missing_value = resolveMissingCode row.missing_value rv.value.isSome ∧
    rv.missing_stderr = resolveMissingCode row.missing_stderr rv.stderr.isSome ∧
    rv.missing_sample_size = resolveMissingCode row.missing_sample_size rv.sample_size.isSome := by
  unfold extract_and_check_row at h
  split at h
  · simp at h
  · split at h
    · split at h
      · simp at h
      · split at h
        · simp at h
        · unfold checkNumerics at h
          split at h
          · simp at h
          · split at h
            · simp at h
            · split at h
              · simp at h
              · simp only [Prod.mk.injEq, Option.some.injEq] at h
                obtain ⟨hrv, -⟩ := h
                subst hrv
                exact ⟨by assumption, by assumption, by assumption, rfl, rfl, rfl⟩
    · simp at h

/-- C1: whenever `extract_and_check_row` returns a `RowValues`, each
numeric field is null exactly when its paired missing code is not
`NOT_MISSING`; in particular an absent numeric field whose supplied
missing code is absent or claims `NOT_MISSING` materializes with the
field null and the code overridden to `OTHER`. -/
theorem C1_null_iff_not_missing (row : CsvRow) (gt : Option String) (rv : RowValues)
    (h : extract_and_check_row row gt = (some rv, none)) :
    ((rv.value = none ↔ rv.missing_value ≠ Nans.NOT_MISSING) ∧
     (rv.stderr = none ↔ rv.missing_stderr ≠ Nans.NOT_MISSING) ∧
     (rv.sample_size = none ↔ rv.missing_sample_size ≠ Nans.NOT_MISSING)) ∧
    (parseQuantity row.value = Quantity.absent →
      (parseMissingNans row.missing_value = some Nans.NOT_MISSING ∨
        parseMissingNans row.missing_value = none) →
      rv.value = none ∧ rv.missing_value = Nans.OTHER) := by
  obtain ⟨hv, hse, hn, hmv, hmse, hmn⟩ := extract_success row gt rv h
  have key : ∀ (f : Option ℚ) (raw : Option String),
      f = none ↔ resolveMissingCode raw f.isSome ≠ Nans.NOT_MISSING := by
    intro f raw
    rcases f with _ | q
    · simpa using resolveMissingCode_absent_ne raw
    · simp [resolveMissingCode_present raw]
  refine ⟨⟨?_, ?_, ?_⟩, ?_⟩
  · rw [hmv]; exact key rv.value row.missing_value
  · rw [hmse]; exact key rv.stderr row.missing_stderr
  · rw [hmn]; exact key rv.sample_size row.missing_sample_size
  · intro habs hcode
    have h2 := hv
    rw [habs] at h2
    have hvn : rv.value = none := Option.some.inj h2.symm
    refine ⟨hvn, ?_⟩
    rw [hmv, hvn]
    simpa using resolveMissingCode_absent_other row.missing_value hcode

/-- The row of the missing-code reconciliation scenario: an empty
`value` cell whose missing code claims NOT_MISSING. -/
def c1row : CsvRow :=
  ⟨some "vi", some "", some "4.56", some "100.5", some "0.0", some "0.0", some "0.0"⟩

/-- The record `extract_and_check_row` produces for `c1row`. -/
def c1rv : RowValues :=
  ⟨"vi", none, some (mkRat 456 100), some (mkRat 1005 10),
   Nans.OTHER, Nans.NOT_MISSING, Nans.NOT_MISSING⟩

/-- Witness for C1 at the concrete reconciliation scenario: the value is
null iff its code is non-trivial, and the claimed NOT_MISSING code of
the empty value cell is overridden to OTHER. -/
theorem C1_null_iff_not_missing_witness :
    (c1rv.value = none ↔ c1rv.missing_value ≠ Nans.NOT_MISSING) ∧
    (c1rv.value = none ∧ c1rv.missing_value = Nans.OTHER) :=
  ⟨(C1_null_iff_not_missing c1row (some "state") c1rv (by decide)).1.1,
   (C1_null_iff_not_missing c1row (some "state") c1rv (by decide)).2 (by decide)
     (Or.inl (by decide))⟩

/-- The row of the tests' fourth success case, with an unparseable
`missing_value` code next to a present value, an absent sample size and
an unparseable `missing_sample_size` code. -/
def c7row : CsvRow :=
  ⟨some "vi", some "1.23", some "4.56", none, some "missing_value", some "5.0", some "garbage"⟩

/-- C7 counterexample: the row is accepted, the unparseable
`missing_value` text sits next to a present value, and the constructed
record carries `NOT_MISSING` there — not `OTHER` as the claim states. -/
theorem C7_unparseable_counterexample :
    (extract_and_check_row c7row (some "state")).2 = none ∧
    ((extract_and_check_row c7row (some "state")).1.map (fun r => r.missing_value)) =
      some Nans.NOT_MISSING ∧
    Nans.NOT_MISSING ≠ Nans.OTHER :=
  ⟨by decide, by decide, by decide⟩

/-- C7 as amended: a missing-code cell that does not decode to an
enumeration member collapses to `OTHER` only when the paired numeric
field is absent; when the paired field is present the code materializes
as `NOT_MISSING`. -/
theorem C7_unparseable_collapse (row : CsvRow) (gt : Option String) (rv : RowValues)
    (h : extract_and_check_row row gt = (some rv, none)) :
    (parseMissingNans row.missing_value = none →
      (rv.value = none → rv.missing_value = Nans.OTHER) ∧
      (rv.value ≠ none → rv.missing_value = Nans.NOT_MISSING)) ∧
    (parseMissingNans row.missing_stderr = none →
      (rv.stderr = none → rv.missing_stderr = Nans.OTHER) ∧
      (rv.stderr ≠ none → rv.missing_stderr = Nans.NOT_MISSING)) ∧
    (parseMissingNans row.missing_sample_size = none →
      (rv.sample_size = none → rv.missing_sample_size = Nans.OTHER) ∧
      (rv.sample_size ≠ none → rv.missing_sample_size = Nans.NOT_MISSING)) := by
  obtain ⟨hv, hse, hn, hmv, hmse, hmn⟩ := extract_success row gt rv h
  have key : ∀ (f : Option ℚ) (raw : Option String), parseMissingNans raw = none →
      (f = none → resolveMissingCode raw f.isSome = Nans.OTHER) ∧
      (f ≠ none → resolveMissingCode raw f.isSome = Nans.NOT_MISSING) := by
    intro f raw hraw
    rcases f with _ | q
    · exact ⟨fun _ => by simpa using resolveMissingCode_absent_other raw (Or.inr hraw),
        fun hne => absurd rfl hne⟩
    · exact ⟨fun hc => by simp at hc, fun _ => by simp [resolveMissingCode_present raw]⟩
  exact ⟨fun hraw => by rw [hmv]; exact key rv.value row.missing_value hraw,
    fun hraw => by rw [hmse]; exact key rv.stderr row.missing_stderr hraw,
    fun hraw => by rw [hmn]; exact key rv.sample_size row.missing_sample_size hraw⟩

/-- The record `extract_and_check_row` produces for `c7row`. -/
def c7rv : RowValues :=
  ⟨"vi", some (mkRat 123 100), some (mkRat 456 100), none,
   Nans.NOT_MISSING, Nans.NOT_MISSING, Nans.OTHER⟩

/-- Witness for the amended C7 at the concrete row: the present value's
unparseable code becomes NOT_MISSING and the absent sample size's
unparseable code becomes OTHER. -/
theorem C7_unparseable_collapse_witness :
    c7rv.missing_value = Nans.NOT_MISSING ∧ c7rv.missing_sample_size = Nans.OTHER :=
  ⟨((C7_unparseable_collapse c7row (some "state") c7rv (by decide)).1 (by decide)).2
      (by decide),
   ((C7_unparseable_collapse c7row (some "state") c7rv (by decide)).2.2 (by decide)).1
      (by decide)⟩

/-- C6 counterexample: with every other field valid, geo_id `600` for
`hrr` and geo_id `400` for `dma` are rejected with failing field
`geo_id` (exactly as the repository's `test_extract_and_check_row`
lists them among the failure cases), contradicting the claimed
[1, 999] acceptance range. -/
theorem C6_hrr_dma_counterexample :
    extract_and_check_row (rowWithGeo "600") (some "hrr") = (none, some "geo_id") ∧
    extract_and_check_row (rowWithGeo "400") (some "dma") = (none, some "geo_id") :=
  ⟨by decide, by decide⟩

/-- Reduction of extraction for geo type `hrr` on the default row. -/
theorem extract_hrr_eq (gid : String) :
    extract_and_check_row (rowWithGeo gid) (some "hrr") =
      match checkGeoId "hrr" gid with
      | none => (none, some "geo_id")
      | some g => checkNumerics (rowWithGeo gid) g := rfl

/-- Reduction of extraction for geo type `dma` on the default row. -/
theorem extract_dma_eq (gid : String) :
    extract_and_check_row (rowWithGeo gid) (some "dma") =
      match checkGeoId "dma" gid with
      | none => (none, some "geo_id")
      | some g => checkNumerics (rowWithGeo gid) g := rfl

/-- Reduction of the `hrr` geo-id check. -/
theorem checkGeoId_hrr (gid : String) :
    checkGeoId "hrr" gid =
      (floaty_int (lowerStr gid)).bind
        (fun n => if 1 ≤ n ∧ n ≤ 500 then some (toString n) else none) := by
  rw [checkGeoId]
  rcases floaty_int (lowerStr gid) with _ | n <;> rfl

/-- Reduction of the `dma` geo-id check. -/
theorem checkGeoId_dma (gid : String) :
    checkGeoId "dma" gid =
      (floaty_int (lowerStr gid)).bind
        (fun n => if 450 ≤ n ∧ n ≤ 950 then some (toString n) else none) := by
  rw [checkGeoId]
  rcases floaty_int (lowerStr gid) with _ | n <;> rfl

/-- The default row passes every numeric check whatever the normalized
geo value is. -/
theorem checkNumerics_rowWithGeo (gid g : String) :
    checkNumerics (rowWithGeo gid) g =
      (some ⟨g, some (mkRat 123 100), some (mkRat 456 100), some (mkRat 1005 10),
        Nans.NOT_MISSING, Nans.NOT_MISSING, Nans.NOT_MISSING⟩, none) := rfl

/-- C6 as amended: for geo types `hrr` and `dma` the geo-id check
accepts exactly the numeric geo_ids whose value lies in [1, 500]
respectively [450, 950] (after `floaty_int` normalization), and rejects
every non-numeric geo_id — not the claimed [1, 999]. -/
theorem C6_hrr_dma_ranges (gid : String) :
    (∀ n : Int, floaty_int (lowerStr gid) = some n →
      (((extract_and_check_row (rowWithGeo gid) (some "hrr")).2 = none) ↔
        1 ≤ n ∧ n ≤ 500) ∧
      (((extract_and_check_row (rowWithGeo gid) (some "dma")).2 = none) ↔
        450 ≤ n ∧ n ≤ 950)) ∧
    (floaty_int (lowerStr gid) = none →
      extract_and_check_row (rowWithGeo gid) (some "hrr") = (none, some "geo_id") ∧
      extract_and_check_row (rowWithGeo gid) (some "dma") = (none, some "geo_id")) := by
  constructor
  · intro n hn
    constructor
    · rw [extract_hrr_eq, checkGeoId_hrr, hn]
      by_cases hr : 1 ≤ n ∧ n ≤ 500
      · simp only [Option.some_bind, if_pos hr, checkNumerics_rowWithGeo]
        simp [hr]
      · simp only [Option.some_bind, if_neg hr]
        simp [hr]
    · rw [extract_dma_eq, checkGeoId_dma, hn]
      by_cases hr : 450 ≤ n ∧ n ≤ 950
      · simp only [Option.some_bind, if_pos hr, checkNumerics_rowWithGeo]
        simp [hr]
      · simp only [Option.some_bind, if_neg hr]
        simp [hr]
  · intro hn
    rw [extract_hrr_eq, checkGeoId_hrr, extract_dma_eq, checkGeoId_dma, hn]
    simp

/-- Witness for the amended C6: the boundary geo_ids `500` (hrr) and
`450` (dma) are accepted. -/
theorem C6_hrr_dma_ranges_witness :
    (extract_and_check_row (rowWithGeo "500") (some "hrr")).2 = none ∧
    (extract_and_check_row (rowWithGeo "450") (some "dma")).2 = none :=
  ⟨((C6_hrr_dma_ranges "500").1 500 (by decide)).1.mpr (by decide),
   ((C6_hrr_dma_ranges "450").1 450 (by decide)).2.mpr (by decide)⟩

/-- The geography stage of the fixed check order: the normalized geo
value when both geo_type and geo_id pass. -/
def geoPasses (row : CsvRow) (gt : Option String) : Option String :=
  match gt with
  | none => none
  | some t =>
    if GEOGRAPHIC_RESOLUTIONS.contains t then row.geo_id.bind (checkGeoId t) else none

/-- When the geography stage passes, extraction proceeds with the
numeric checks. -/
theorem extract_geo_ok (row : CsvRow) (gt : Option String) (g : String)
    (h : geoPasses row gt = some g) :
    extract_and_check_row row gt = checkNumerics row g := by
  unfold geoPasses at h
  unfold extract_and_check_row
  rcases gt with _ | t
  · exact absurd h (by simp)
  · dsimp only at h ⊢
    by_cases hc : GEOGRAPHIC_RESOLUTIONS.contains t = true
    · rw [if_pos hc] at h
      rw [if_pos hc]
      rcases hg : row.geo_id with _ | gid
      · rw [hg] at h
        simp at h
      · rw [hg] at h
        simp only [Option.some_bind] at h
        simp [h]
    · rw [if_neg hc] at h
      simp at h

/-- C10: once the geography checks pass, a numeric field that parses to
an infinite float is rejected with that field's name; for `stderr` and
`sample_size` a parsed finite negative number is likewise rejected with
that field's name; and a finite negative `value` never triggers a
rejection on the `value` field. -/
theorem C10_numeric_rejections :
    (∀ (row : CsvRow) (gt : Option String) (g : String), geoPasses row gt = some g →
      (parseQuantity row.value = Quantity.infinite →
        extract_and_check_row row gt = (none, some "value")) ∧
      (checkValueField (parseQuantity row.value) ≠ none →
        (parseQuantity row.stderr = Quantity.infinite ∨
          (∃ q : ℚ, q < 0 ∧ parseQuantity row.stderr = Quantity.finite q)) →
        extract_and_check_row row gt = (none, some "stderr")) ∧
      (checkValueField (parseQuantity row.value) ≠ none →
        checkStatField (parseQuantity row.stderr) ≠ none →
        (parseQuantity row.sample_size = Quantity.infinite ∨
          (∃ q : ℚ, q < 0 ∧ parseQuantity row.sample_size = Quantity.finite q)) →
        extract_and_check_row row gt = (none, some "sample_size"))) ∧
    (∀ (row : CsvRow) (gt : Option String) (q : ℚ), q < 0 →
      parseQuantity row.value = Quantity.finite q →
      (extract_and_check_row row gt).2 ≠ some "value") := by
  have hstat : ∀ raw : Option String,
      (parseQuantity raw = Quantity.infinite ∨
        (∃ q : ℚ, q < 0 ∧ parseQuantity raw = Quantity.finite q)) →
      checkStatField (parseQuantity raw) = none := by
    intro raw h
    rcases h with h | ⟨q, hq, h⟩
    · rw [h]
      rfl
    · rw [h]
      simp [checkStatField, if_pos hq]
  constructor
  · intro row gt g hg
    rw [extract_geo_ok row gt g hg]
    refine ⟨?_, ?_, ?_⟩
    · intro hinf
      unfold checkNumerics
      rw [hinf]
      rfl
    · intro hval hserr
      unfold checkNumerics
      rcases hv : checkValueField (parseQuantity row.value) with _ | v
      · exact absurd hv hval
      · simp [hstat row.stderr hserr]
    · intro hval hse hn
      unfold checkNumerics
      rcases hv : checkValueField (parseQuantity row.value) with _ | v
      · exact absurd hv hval
      · rcases hs : checkStatField (parseQuantity row.stderr) with _ | se
        · exact absurd hs hse
        · simp [hstat row.sample_size hn]
  · intro row gt q hq hfin
    unfold extract_and_check_row
    split
    · simp
    · split
      · split
        · simp
        · split
          · simp
          · unfold checkNumerics
            split
            · rename_i heq
              rw [hfin] at heq
              simp [checkValueField] at heq
            · split
              · simp
              · split
                · simp
                · simp
      · simp

/-- The default row with stderr `-1`. -/
def c10row : CsvRow :=
  ⟨some "vi", some "1.23", some "-1", some "100.5", some "0.0", some "0.0", some "0.0"⟩

/-- Witness for C10 at the tests' concrete scenario: stderr `-1` is
rejected with failing field `stderr`. -/
theorem C10_numeric_rejections_witness :
    extract_and_check_row c10row (some "state") = (none, some "stderr") :=
  (C10_numeric_rejections.1 c10row (some "state") "vi" (by decide)).2.1 (by decide)
    (Or.inr ⟨-1, by norm_num, by decide⟩)

/-- One-step unfolding of `splitChar` on a cons cell. -/
theorem splitChar_cons (sep c : Char) (rest : List Char) :
    splitChar sep (c :: rest) =
      if c == sep then [] :: splitChar sep rest
      else
        match splitChar sep rest with
        | [] => [[c]]
        | h :: t => (c :: h) :: t := rfl

/-- `splitChar` never produces an empty list of segments. -/
theorem splitChar_ne_nil (sep : Char) (cs : List Char) : splitChar sep cs ≠ [] := by
  induction cs with
  | nil => simp [splitChar]
  | cons c cs ih =>
    rw [splitChar_cons]
    by_cases h : (c == sep) = true
    · simp [h]
    · rw [Bool.not_eq_true] at h
      simp only [h, Bool.false_eq_true, if_false]
      rcases hr : splitChar sep cs with _ | ⟨h1, t1⟩
      · simp
      · simp

/-- Splitting an appended list at a separator occurrence splits each
part separately. -/
theorem splitChar_append (sep : Char) (xs ys : List Char) :
    splitChar sep (xs ++ sep :: ys) = splitChar sep xs ++ splitChar sep ys := by
  induction xs with
  | nil =>
    rw [List.nil_append, splitChar_cons]
    simp [splitChar]
  | cons c xs ih =>
    rw [List.cons_append, splitChar_cons, splitChar_cons, ih]
    by_cases h : (c == sep) = true
    · simp [h]
    · rw [Bool.not_eq_true] at h
      simp only [h, Bool.false_eq_true, if_false]
      rcases hx : splitChar sep xs with _ | ⟨h1, t1⟩
      · exact absurd hx (splitChar_ne_nil sep xs)
      · simp

/-- A separator-free list is a single segment. -/
theorem splitChar_no_sep (sep : Char) (xs : List Char) (h : ¬ sep ∈ xs) :
    splitChar sep xs = [xs] := by
  induction xs with
  | nil => rfl
  | cons c xs ih =>
    have hc : (c == sep) = false := by
      simp only [beq_eq_false_iff_ne, ne_eq]
      intro he
      exact h (he ▸ List.mem_cons_self c xs)
    rw [splitChar_cons, ih (fun hm => h (List.mem_cons_of_mem c hm))]
    simp [hc]

/-- `breakUnderscore` splits at the first underscore: on an
underscore-free part followed by an underscore it returns the two
surrounding parts. -/
theorem breakUnderscore_split (xs ys : List Char) (h : ¬ '_' ∈ xs) :
    breakUnderscore (xs ++ '_' :: ys) = some (xs, ys) := by
  induction xs with
  | nil => rfl
  | cons c xs ih =>
    have hc : (c == '_') = false := by
      simp only [beq_eq_false_iff_ne, ne_eq]
      intro he
      exact h (he ▸ List.mem_cons_self c xs)
    simp only [List.cons_append]
    unfold breakUnderscore
    rw [ih (fun hm => h (List.mem_cons_of_mem c hm))]
    simp [hc]

/-- Any list of characters followed by `.csv` ends with `.csv`. -/
theorem endsWithCsv_append (xs : List Char) :
    endsWithCsv (xs ++ ['.', 'c', 's', 'v']) = true := by
  unfold endsWithCsv
  rw [List.reverse_append]
  rfl

/-- Dropping the four trailing characters of `l ++ ".csv"` leaves `l`. -/
theorem take_sub_csv (l : List Char) :
    (l ++ ['.', 'c', 's', 'v']).take ((l ++ ['.', 'c', 's', 'v']).length - 4) = l := by
  rw [List.length_append]
  simp only [List.length_cons, List.length_nil, Nat.add_sub_cancel]
  exact List.take_left l _

/-- A non-empty list is not `isEmpty`. -/
theorem isEmpty_false_of_ne_nil {l : List Char} (h : l ≠ []) : l.isEmpty = false := by
  rcases l with _ | ⟨a, l⟩
  · exact absurd rfl h
  · rfl

/-- The core file-name parser accepts exactly the
`<n digits>_<geo>_<signal>` decomposition: on a list built from `n`
digits, an underscore, an underscore-free non-empty word `geo` and a
non-empty word `signal`, it returns the embedded time value and the two
parts. -/
theorem parseFilenameCore_split (n : Nat) (digits geo sig : List Char)
    (hdn : digits.length = n) (hdall : digits.all Char.isDigit = true)
    (hgeo0 : geo ≠ []) (hgeow : geo.all isWordChar = true) (hgeou : ¬ '_' ∈ geo)
    (hsig0 : sig ≠ []) (hsigw : sig.all isWordChar = true) :
    parseFilenameCore n (digits ++ '_' :: (geo ++ '_' :: sig)) =
      some ((natOfDigits digits : Int), geo, sig) := by
  simp only [parseFilenameCore]
  rw [List.take_left' hdn, List.drop_left' hdn]
  rw [if_pos (by simp [hdn, hdall])]
  simp [breakUnderscore_split geo sig hgeou, isEmpty_false_of_ne_nil hgeo0,
    isEmpty_false_of_ne_nil hsig0, hgeow, hsigw]

/-- A file name of the standard weekly shape
`weekly_<digits>_<geo>_<signal>.csv` parses to its components. -/
theorem parseFilename_weekly (digits geo sig : List Char)
    (hd6 : digits.length = 6) (hdall : digits.all Char.isDigit = true)
    (hgeo0 : geo ≠ []) (hgeow : geo.all isWordChar = true) (hgeou : ¬ '_' ∈ geo)
    (hsig0 : sig ≠ []) (hsigw : sig.all isWordChar = true) :
    parseFilename (('w' :: 'e' :: 'e' :: 'k' :: 'l' :: 'y' :: '_' ::
        (digits ++ '_' :: (geo ++ '_' :: sig))) ++ ['.', 'c', 's', 'v']) =
      some (true, (natOfDigits digits : Int), geo, sig) := by
  simp only [parseFilename]
  rw [endsWithCsv_append, if_pos rfl, take_sub_csv]
  have h7 : ((('w' :: 'e' :: 'e' :: 'k' :: 'l' :: 'y' :: '_' ::
      (digits ++ '_' :: (geo ++ '_' :: sig))).take 7) ==
        ['w', 'e', 'e', 'k', 'l', 'y', '_']) = true := rfl
  rw [if_pos h7]
  have hdrop : ('w' :: 'e' :: 'e' :: 'k' :: 'l' :: 'y' :: '_' ::
      (digits ++ '_' :: (geo ++ '_' :: sig))).drop 7 =
        digits ++ '_' :: (geo ++ '_' :: sig) := rfl
  rw [hdrop,
    parseFilenameCore_split 6 digits geo sig hd6 hdall hgeo0 hgeow hgeou hsig0 hsigw]

/-- A path of the standard shape `<prefix>/<source>/<file>` is parsed by
taking the second-to-last segment as the source and handing the last
segment to the file-name parser. -/
theorem parsePath_split (pre src fname : List Char)
    (hsrc : ¬ '/' ∈ src) (hf : ¬ '/' ∈ fname) :
    parsePath (pre ++ '/' :: (src ++ '/' :: fname)) =
      match parseFilename fname with
      | some r => some ⟨String.mk src, r.1, r.2.1, String.mk r.2.2.1, String.mk r.2.2.2⟩
      | none => none := by
  simp only [parsePath]
  rw [splitChar_append, splitChar_append, splitChar_no_sep '/' src hsrc,
    splitChar_no_sep '/' fname hf]
  rcases hA : splitChar '/' pre with _ | ⟨a0, arest⟩
  · exact absurd hA (splitChar_ne_nil '/' pre)
  · rw [if_pos (by
      simp only [List.length_append, List.length_cons, List.length_singleton]
      omega)]
    rw [show ((a0 :: arest) ++ ([src] ++ [fname])).reverse
        = fname :: src :: (a0 :: arest).reverse from by simp]

/-- C8: every path of the standard weekly shape
`<prefix>/<source>/weekly_<week>_<geo_type>_<signal>.csv` (lower-cased;
no issue directory is involved, as `find_csv_files` carries no
issue-directory context) whose embedded week is sane and whose geo type
is recognized is discovered with metadata `(source, signal, week,
geo_type, week_value, current epiweek, delta_epiweeks(week_value,
current epiweek))`. -/
theorem C8_weekly_discovery (t : Today) (path : String)
    (pre src digits geo sig : List Char)
    (hdec : path.data.map Char.toLower =
      pre ++ '/' :: (src ++ '/' ::
        (('w' :: 'e' :: 'e' :: 'k' :: 'l' :: 'y' :: '_' ::
          (digits ++ '_' :: (geo ++ '_' :: sig))) ++ ['.', 'c', 's', 'v'])))
    (hsrc : ¬ '/' ∈ src)
    (hd6 : digits.length = 6) (hdall : digits.all Char.isDigit = true)
    (hgeo0 : geo ≠ []) (hgeow : geo.all isWordChar = true) (hgeou : ¬ '_' ∈ geo)
    (hsig0 : sig ≠ []) (hsigw : sig.all isWordChar = true)
    (hsane : is_sane_week t.year (natOfDigits digits : Int) = true)
    (hrec : GEOGRAPHIC_RESOLUTIONS.contains (String.mk geo) = true) :
    find_csv_files t [path] =
      [(path, some (String.mk src, String.mk sig, "week", String.mk geo,
        (natOfDigits digits : Int), t.epiweek,
        delta_epiweeks (natOfDigits digits : Int) t.epiweek))] := by
  have hf : ¬ '/' ∈ (('w' :: 'e' :: 'e' :: 'k' :: 'l' :: 'y' :: '_' ::
      (digits ++ '_' :: (geo ++ '_' :: sig))) ++ ['.', 'c', 's', 'v']) := by
    intro hm
    rcases List.mem_append.mp hm with hm | hm
    · rcases List.mem_cons.mp hm with h | hm
      · exact absurd h (by decide)
      rcases List.mem_cons.mp hm with h | hm
      · exact absurd h (by decide)
      rcases List.mem_cons.mp hm with h | hm
      · exact absurd h (by decide)
      rcases List.mem_cons.mp hm with h | hm
      · exact absurd h (by decide)
      rcases List.mem_cons.mp hm with h | hm
      · exact absurd h (by decide)
      rcases List.mem_cons.mp hm with h | hm
      · exact absurd h (by decide)
      rcases List.mem_cons.mp hm with h | hm
      · exact absurd h (by decide)
      rcases List.mem_append.mp hm with hm | hm
      · exact absurd (List.all_eq_true.mp hdall '/' hm) (by decide)
      · rcases List.mem_cons.mp hm with h | hm
        · exact absurd h (by decide)
        rcases List.mem_append.mp hm with hm | hm
        · exact absurd (List.all_eq_true.mp hgeow '/' hm) (by decide)
        · rcases List.mem_cons.mp hm with h | hm
          · exact absurd h (by decide)
          · exact absurd (List.all_eq_true.mp hsigw '/' hm) (by decide)
    · exact absurd hm (by decide)
  have hcsv : endsWithCsv (pre ++ '/' :: (src ++ '/' ::
      (('w' :: 'e' :: 'e' :: 'k' :: 'l' :: 'y' :: '_' ::
        (digits ++ '_' :: (geo ++ '_' :: sig))) ++ ['.', 'c', 's', 'v']))) = true := by
    rw [show pre ++ '/' :: (src ++ '/' ::
        (('w' :: 'e' :: 'e' :: 'k' :: 'l' :: 'y' :: '_' ::
          (digits ++ '_' :: (geo ++ '_' :: sig))) ++ ['.', 'c', 's', 'v']))
      = (pre ++ '/' :: (src ++ '/' ::
          ('w' :: 'e' :: 'e' :: 'k' :: 'l' :: 'y' :: '_' ::
            (digits ++ '_' :: (geo ++ '_' :: sig))))) ++ ['.', 'c', 's', 'v'] from by
        simp only [List.cons_append, List.append_assoc]]
    exact endsWithCsv_append _
  have hmeta : metaOf t
      (⟨String.mk src, true, (natOfDigits digits : Int), String.mk geo,
        String.mk sig⟩ : ParsedName) =
      some (String.mk src, String.mk sig, "week", String.mk geo,
        (natOfDigits digits : Int), t.epiweek,
        delta_epiweeks (natOfDigits digits : Int) t.epiweek) := by
    simp only [metaOf]
    rw [if_pos True.intro, if_pos hsane, if_pos hrec]
  have hclass : classifyPath t path =
      some (path, some (String.mk src, String.mk sig, "week", String.mk geo,
        (natOfDigits digits : Int), t.epiweek,
        delta_epiweeks (natOfDigits digits : Int) t.epiweek)) := by
    simp only [classifyPath]
    rw [hdec, if_pos hcsv,
      parsePath_split pre src _ hsrc hf,
      parseFilename_weekly digits geo sig hd6 hdall hgeo0 hgeow hgeou hsig0 hsigw]
    dsimp only
    rw [hmeta]
  unfold find_csv_files
  rw [List.filterMap_cons, hclass, List.filterMap_nil]

/-- Witness for C8 at the tests' concrete weekly path and the concrete
current date 2026-10-12 / epiweek 202642. -/
theorem C8_weekly_discovery_witness :
    find_csv_files T0 ["prefix/to/the/data/fb_survey/weekly_202015_county_cli.csv"] =
      [("prefix/to/the/data/fb_survey/weekly_202015_county_cli.csv",
        some ("fb_survey", "cli", "week", "county", (202015 : Int), 202642,
          delta_epiweeks 202015 202642))] :=
  C8_weekly_discovery T0 "prefix/to/the/data/fb_survey/weekly_202015_county_cli.csv"
    ("prefix/to/the/data").data ("fb_survey").data
    ['2', '0', '2', '0', '1', '5'] ("county").data ("cli").data
    (by decide) (by decide) (by decide) (by decide) (by decide) (by decide)
    (by decide) (by decide) (by decide) (by decide) (by decide)

/-- The non-csv path of the repository's `test_find_csv_files`. -/
def pathReadme : String := "prefix/to/the/data/ignored/README.md"

/-- C9 counterexample: the discovered path `README.md` produces no
output pair at all — `find_csv_files` omits it instead of emitting
`(path, None)` as the claim states (the repository's
`test_find_csv_files` likewise expects no entry for it). -/
theorem C9_noncsv_counterexample :
    find_csv_files T0 [pathReadme] = [] ∧
    ¬ ((pathReadme, (none : Option PathMeta)) ∈ find_csv_files T0 [pathReadme]) := by
  refine ⟨by rfl, ?_⟩
  intro hmem
  rw [show find_csv_files T0 [pathReadme] = [] from rfl] at hmem
  exact absurd hmem (List.not_mem_nil _)

/-- C9 as amended: a discovered path whose lower-cased name does not
end in `.csv` is omitted from the output entirely, while every
discovered `.csv` path whose name does not match the standard shape is
emitted as `(path, none)` — shown in particular at the tests' path
`invalid/hello_world.csv`. -/
theorem C9_noncsv_skipped :
    (∀ (t : Today) (p : String), endsWithCsv (p.data.map Char.toLower) = false →
      find_csv_files t [p] = []) ∧
    (∀ (t : Today) (p : String), endsWithCsv (p.data.map Char.toLower) = true →
      parsePath (p.data.map Char.toLower) = none →
      find_csv_files t [p] = [(p, none)]) ∧
    (∀ t : Today, find_csv_files t ["prefix/to/the/data/invalid/hello_world.csv"] =
      [("prefix/to/the/data/invalid/hello_world.csv", none)]) := by
  refine ⟨?_, ?_, ?_⟩
  · intro t p h
    unfold find_csv_files classifyPath
    rw [List.filterMap_cons]
    simp [h]
  · intro t p h1 h2
    unfold find_csv_files classifyPath
    rw [List.filterMap_cons]
    simp [h1, h2]
  · intro t
    rfl

/-- Witness for the amended C9: a concrete non-csv path is omitted and
a concrete unrecognized `.csv` path is emitted as `(path, none)`. -/
theorem C9_noncsv_skipped_witness :
    find_csv_files T0 ["some/dir/notes.txt"] = [] ∧
    find_csv_files T0 ["a/b/nope.csv"] = [("a/b/nope.csv", none)] :=
  ⟨C9_noncsv_skipped.1 T0 "some/dir/notes.txt" (by decide),
   C9_noncsv_skipped.2.1 T0 "a/b/nope.csv" (by decide) (by decide)⟩
